import Mathlib

/-!
Verification of gplay_mobile_search.py (google-play-mobile-api).

We shallowly embed the module: Python values that flow through the search
pipeline become the inductive type PyVal; every Python operation that can
raise is modelled in the Except monad, so an exception of the source
program is an Except.error of the embedding.  The remote protocol client
(the external playstoreapi collaborator) is modelled as an oracle: a
function from the request counter to that request's outcome.  Python
floats are modelled as exact rationals; the only float arithmetic in the
module is division of an integer "micros" value by 1,000,000, which is
exact at every value the verified claims mention.
-/

/-- A Python value as it appears in the loosely typed response documents
(decoded JSON): None, bool, int, float (as an exact rational), str,
list, dict. -/
inductive PyVal where
  | none : PyVal
  | bool : Bool → PyVal
  | int : Int → PyVal
  | rat : ℚ → PyVal
  | str : String → PyVal
  | list : List PyVal → PyVal
  | dict : List (String × PyVal) → PyVal

/-- Python truthiness: None, False, 0, 0.0, empty string and empty
containers are falsy; everything else is truthy. -/
def PyVal.truthy : PyVal → Bool
  | .none => false
  | .bool b => b
  | .int n => decide (n ≠ 0)
  | .rat q => decide (q ≠ 0)
  | .str s => decide (s ≠ "")
  | .list l => !l.isEmpty
  | .dict kvs => !kvs.isEmpty

/-- Key lookup in a dict body with a default: dict.get(key, dflt). -/
def lookupD (kvs : List (String × PyVal)) (key : String) (dflt : PyVal) : PyVal :=
  (List.lookup key kvs).getD dflt

/-- Python `a or b`: the left operand if truthy, else the right. -/
def pyOr (a b : PyVal) : PyVal := if a.truthy then a else b

/-- v.get(key, dflt) on an arbitrary value: succeeds only on dicts,
raises AttributeError otherwise (even when v is falsy). -/
def pyGet (v : PyVal) (key : String) (dflt : PyVal) : Except String PyVal :=
  match v with
  | .dict kvs => .ok (lookupD kvs key dflt)
  | _ => .error "AttributeError: get"

/-- Python iteration `for x in v`: lists yield their elements, strings
their characters, dicts their keys; other values raise TypeError. -/
def pyIter : PyVal → Except String (List PyVal)
  | .list l => .ok l
  | .str s => .ok (s.data.map fun c => .str (String.singleton c))
  | .dict kvs => .ok (kvs.map fun kv => .str kv.1)
  | _ => .error "TypeError: not iterable"

/-- Numeric view used by Python cross-type equality: bools count as 0/1,
ints and floats as rationals. -/
def PyVal.toRatNum : PyVal → Option ℚ
  | .bool b => Option.some (if b then 1 else 0)
  | .int n => Option.some (n : ℚ)
  | .rat q => Option.some q
  | _ => Option.none

/-- Python equality as this module applies it: numbers compare
numerically across bool/int/float, None equals None, strings compare as
strings, and values of different kinds are unequal.  (In this module ==
is only reached with an int literal operand or between set elements that
passed the hashability check, so container-container equality never
arises; we let it be false.) -/
def pyEq (a b : PyVal) : Bool :=
  match a.toRatNum, b.toRatNum with
  | Option.some x, Option.some y => decide (x = y)
  | _, _ =>
    match a, b with
    | .none, .none => true
    | .str s, .str t => decide (s = t)
    | _, _ => false

/-- Python hashability: lists and dicts are unhashable (set membership
raises TypeError on them), everything else here is hashable. -/
def pyHashable : PyVal → Bool
  | .list _ => false
  | .dict _ => false
  | _ => true

/-- Codepoint ranges of the decimal digit characters (Unicode
Numeric_Type=Decimal, the characters int() converts); each range runs
through the values 0 to 9 in order. Taken from the unicodedata tables of
the CPython 3.11 interpreter this module runs under. -/
def decimalDigitRanges : List (Nat × Nat) :=
  [(48, 57), (1632, 1641), (1776, 1785), (1984, 1993), (2406, 2415), (2534, 2543),
   (2662, 2671), (2790, 2799), (2918, 2927), (3046, 3055), (3174, 3183), (3302, 3311),
   (3430, 3439), (3558, 3567), (3664, 3673), (3792, 3801), (3872, 3881), (4160, 4169),
   (4240, 4249), (6112, 6121), (6160, 6169), (6470, 6479), (6608, 6617), (6784, 6793),
   (6800, 6809), (6992, 7001), (7088, 7097), (7232, 7241), (7248, 7257), (42528, 42537),
   (43216, 43225), (43264, 43273), (43472, 43481), (43504, 43513), (43600, 43609),
   (44016, 44025), (65296, 65305), (66720, 66729), (68912, 68921), (69734, 69743),
   (69872, 69881), (69942, 69951), (70096, 70105), (70384, 70393), (70736, 70745),
   (70864, 70873), (71248, 71257), (71360, 71369), (71472, 71481), (71904, 71913),
   (72016, 72025), (72784, 72793), (73040, 73049), (73120, 73129), (92768, 92777),
   (92864, 92873), (93008, 93017), (120782, 120791), (120792, 120801), (120802, 120811),
   (120812, 120821), (120822, 120831), (123200, 123209), (123632, 123641),
   (125264, 125273), (130032, 130041)]

/-- Codepoint ranges of the characters with Unicode Numeric_Type=Digit
that are not decimal (superscripts such as U+00B2, circled digits, ...):
str.isdigit accepts them but int() raises ValueError on them. Same
source tables. -/
def nonDecimalDigitRanges : List (Nat × Nat) :=
  [(178, 179), (185, 185), (4969, 4977), (6618, 6618), (8304, 8304), (8308, 8313),
   (8320, 8329), (9312, 9320), (9332, 9340), (9352, 9360), (9450, 9450), (9461, 9469),
   (9471, 9471), (10102, 10110), (10112, 10120), (10122, 10130), (68160, 68163),
   (69216, 69224), (69714, 69722), (127232, 127242)]

/-- The decimal value of a character, when it is a decimal digit. -/
def pyCharDecimalVal? (c : Char) : Option Nat :=
  (decimalDigitRanges.find? fun r => decide (r.1 ≤ c.toNat) && decide (c.toNat ≤ r.2)).map
    fun r => c.toNat - r.1

/-- c.isdigit(): true for decimal digits and for the non-decimal digit
characters. -/
def pyCharIsDigit (c : Char) : Bool :=
  (pyCharDecimalVal? c).isSome ||
    nonDecimalDigitRanges.any fun r => decide (r.1 ≤ c.toNat) && decide (c.toNat ≤ r.2)

/-- str.isdigit(): non-empty and every character is a digit. -/
def pyIsDigitStr (s : String) : Bool := !(s == "") && s.data.all pyCharIsDigit

/-- int(s) on a digit string: raises ValueError when some character is a
digit but not a decimal digit (e.g. a superscript), or when the string
exceeds the 4300-character integer-conversion limit of this CPython;
otherwise the base-10 value of the characters' decimal values. -/
def pyIntOfDigitStr (s : String) : Except String Nat :=
  match s.data.mapM pyCharDecimalVal? with
  | Option.some ds =>
    if 4300 < ds.length then
      .error "ValueError: Exceeds the limit (4300 digits) for integer string conversion"
    else .ok (ds.foldl (fun n d => n * 10 + d) 0)
  | Option.none => .error "ValueError: invalid literal for int() with base 10"

/-- micros / 1_000_000: numeric values divide (True counts as 1),
anything else raises TypeError. -/
def pyDivMicros : PyVal → Except String ℚ
  | .int n => .ok ((n : ℚ) / 1000000)
  | .bool b => .ok ((if b then (1 : ℚ) else 0) / 1000000)
  | .rat q => .ok (q / 1000000)
  | _ => .error "TypeError: division"

/-- v[:200]: slices strings and lists, raises TypeError otherwise. -/
def pySlice200 : PyVal → Except String PyVal
  | .str s => .ok (.str (s.take 200))
  | .list l => .ok (.list (l.take 200))
  | _ => .error "TypeError: slice"

/-- The icon loop of _parse_app: first image whose imageType equals 4
yields its imageUrl; img.get raises on non-dict entries. -/
def findIcon : List PyVal → Except String PyVal
  | [] => .ok .none
  | img :: rest => do
    let t ← pyGet img "imageType" .none
    if pyEq t (.int 4) then pyGet img "imageUrl" .none
    else findIcon rest

/-- The flat record _parse_app returns (a Python dict with this fixed
key set; currency is the constant "USD"). -/
structure AppRecord where
  appId : PyVal
  title : PyVal
  score : PyVal
  developer : PyVal
  developerId : PyVal
  icon : PyVal
  installs : PyVal
  price : ℚ
  currency : String
  free : Bool
  summary : PyVal

/-- The offer/price block of _parse_app: offer = item.get("offer", []);
when truthy, take offer[0] if offer is a list (truthy, hence non-empty)
else offer itself; when that is a dict, read micros (non-digit strings
count as 0, digit strings go through int(), which raises ValueError on
digit strings holding non-decimal digits), divide by 1_000_000 and set
free = price == 0; in all other cases price stays 0.0 and free stays
True. -/
def parsePriceFree (kvs : List (String × PyVal)) : Except String (ℚ × Bool) :=
  let offer := lookupD kvs "offer" (.list [])
  if offer.truthy then do
    let first_offer ←
      (match offer with
       | .list (x :: _) => Except.ok x
       | .list [] => Except.error "IndexError"
       | _ => Except.ok offer : Except String PyVal)
    match first_offer with
    | .dict fkvs => do
      let micros ←
        (match lookupD fkvs "micros" (.int 0) with
         | .str s =>
           if pyIsDigitStr s then Except.map (fun n => PyVal.int n) (pyIntOfDigitStr s)
           else Except.ok (PyVal.int 0)
         | v => Except.ok v : Except String PyVal)
      let price ← pyDivMicros micros
      .ok (price, decide (price = 0))
    | _ => .ok (0, true)
  else .ok (0, true)

/-- _parse_app: normalize one raw app document into the flat record.
Mirrors the source line by line; every .get on a nested value, the image
iteration, the slice and the developer-email split are in the Except
monad because they raise on ill-typed input. -/
def _parse_app (item : PyVal) : Except String AppRecord :=
  match item with
  | .dict kvs => do
    let app_id := pyOr (lookupD kvs "id" .none) (pyOr (lookupD kvs "docid" .none) (.str ""))
    let title := (List.lookup "title" kvs).getD (.str "")
    let details ← pyGet (lookupD kvs "details" (.dict [])) "appDetails" (.dict [])
    let devInst ←
      (if details.truthy then do
        let d ← pyGet details "developerName" .none
        let n ← pyGet details "numDownloads" .none
        Except.ok (d, n)
      else Except.ok (PyVal.none, PyVal.none) : Except String (PyVal × PyVal))
    let agg := lookupD kvs "aggregateRating" (.dict [])
    let score ← (if agg.truthy then pyGet agg "starRating" .none
                 else Except.ok PyVal.none : Except String PyVal)
    let images ← pyIter (lookupD kvs "image" (.list []))
    let icon ← findIcon images
    let pf ← parsePriceFree kvs
    let summary ←
      (match List.lookup "descriptionHtml" kvs with
       | Option.some v => pySlice200 v
       | Option.none =>
         match List.lookup "descriptionShort" kvs with
         | Option.some v => Except.ok v
         | Option.none => Except.ok PyVal.none : Except String PyVal)
    let developerId ← do
      let c ← pyGet details "developerEmail" .none
      if c.truthy then do
        let e ← pyGet details "developerEmail" (.str "")
        match e with
        | .str s => Except.ok (PyVal.str ((s.splitOn "@").headD ""))
        | _ => Except.error "AttributeError: split"
      else Except.ok PyVal.none
    .ok { appId := app_id, title := title, score := score, developer := devInst.1,
          developerId := developerId, icon := icon, installs := devInst.2,
          price := pf.1, currency := "USD", free := pf.2, summary := summary }
  | _ => .error "AttributeError: get"

/-- One container-metadata cursor check of the extractor: when the
container value has a truthy nextPageUrl, it overwrites the running
cursor; container.get raises on non-dict containers. -/
def updateCursor (container : PyVal) (cur : Option PyVal) : Except String (Option PyVal) :=
  match container with
  | .dict kvs =>
    match List.lookup "nextPageUrl" kvs with
    | Option.some v => .ok (if v.truthy then Option.some v else cur)
    | Option.none => .ok cur
  | _ => .error "AttributeError: get"

/-- The innermost loop of the extractor: every dict node of a cluster's
subItem whose id is truthy is parsed and appended. -/
def processApps : List PyVal → List AppRecord → Except String (List AppRecord)
  | [], acc => .ok acc
  | app :: rest, acc =>
    match app with
    | .dict kvs =>
      if (lookupD kvs "id" PyVal.none).truthy then do
        let r ← _parse_app (.dict kvs)
        processApps rest (acc ++ [r])
      else processApps rest acc
    | _ => processApps rest acc

/-- The middle loop of the extractor: non-dict clusters are skipped;
a dict cluster first checks its containerMetadata for a cursor, then
iterates its subItem collecting apps. -/
def processClusters :
    List PyVal → List AppRecord → Option PyVal → Except String (List AppRecord × Option PyVal)
  | [], acc, cur => .ok (acc, cur)
  | cluster :: rest, acc, cur =>
    match cluster with
    | .dict kvs => do
      let cur1 ← updateCursor (lookupD kvs "containerMetadata" (.dict [])) cur
      let inner ← pyIter (lookupD kvs "subItem" (.list []))
      let acc1 ← processApps inner acc
      processClusters rest acc1 cur1
    | _ => processClusters rest acc cur

/-- The outer loop of the extractor: non-dict documents are skipped; a
dict document checks its containerMetadata cursor, walks its subItem
clusters, and is itself emitted as a direct app match when its id is
truthy and its subItem is falsy. -/
def processDocs :
    List PyVal → List AppRecord → Option PyVal → Except String (List AppRecord × Option PyVal)
  | [], acc, cur => .ok (acc, cur)
  | doc :: rest, acc, cur =>
    match doc with
    | .dict kvs => do
      let cur1 ← updateCursor (lookupD kvs "containerMetadata" (.dict [])) cur
      let clusters ← pyIter (lookupD kvs "subItem" (.list []))
      let res ← processClusters clusters acc cur1
      if (lookupD kvs "id" PyVal.none).truthy && !(lookupD kvs "subItem" PyVal.none).truthy then do
        let r ← _parse_app (.dict kvs)
        processDocs rest (res.1 ++ [r]) res.2
      else processDocs rest res.1 res.2
    | _ => processDocs rest acc cur

/-- _extract_apps_from_response: walk the response documents collecting
parsed app records and the last-seen continuation cursor. -/
def _extract_apps_from_response (data : List PyVal) :
    Except String (List AppRecord × Option PyVal) :=
  processDocs data [] Option.none

/-- Sequential parsing of a list of raw documents, propagating the first
failure: the reference point for stating which nodes the extractor
emits. -/
def parseAll : List PyVal → Except String (List AppRecord)
  | [] => .ok []
  | v :: rest => do
    let r ← _parse_app v
    let rs ← parseAll rest
    .ok (r :: rs)

/-- Total variant of pyIter used only on the specification side: values
the source could not iterate contribute nothing. -/
def pyIterTotal (v : PyVal) : List PyVal :=
  match v with
  | .list l => l
  | .str s => s.data.map fun c => .str (String.singleton c)
  | .dict kvs => kvs.map fun kv => .str kv.1
  | _ => []

/-- Specification side: the truthy cursor a container value offers, if
any. -/
def specContainerCursor (c : PyVal) : Option PyVal :=
  match c with
  | .dict kvs =>
    match List.lookup "nextPageUrl" kvs with
    | Option.some v => if v.truthy then Option.some v else Option.none
    | Option.none => Option.none
  | _ => Option.none

/-- Specification side: the cursors a cluster contributes, in visit
order. -/
def specClusterCursors (cluster : PyVal) : List PyVal :=
  match cluster with
  | .dict kvs => (specContainerCursor (lookupD kvs "containerMetadata" (.dict []))).toList
  | _ => []

/-- Specification side: the cursors one document contributes, in visit
order: its own container cursor first, then its clusters in order. -/
def specDocCursors (doc : PyVal) : List PyVal :=
  match doc with
  | .dict kvs =>
    (specContainerCursor (lookupD kvs "containerMetadata" (.dict []))).toList
      ++ (pyIterTotal (lookupD kvs "subItem" (.list []))).flatMap specClusterCursors
  | _ => []

/-- Specification side: every truthy continuation cursor of a response,
in the document order the extractor visits them. -/
def specPageCursors (data : List PyVal) : List PyVal := data.flatMap specDocCursors

/-- Specification side: the third-level nodes a cluster subItem list
emits: exactly its dict members with a truthy id. -/
def specLevel3Nodes (items : List PyVal) : List PyVal :=
  items.filter fun a =>
    match a with
    | .dict kvs => (lookupD kvs "id" PyVal.none).truthy
    | _ => false

/-- Specification side: the app nodes one cluster contributes. -/
def specClusterAppNodes (cluster : PyVal) : List PyVal :=
  match cluster with
  | .dict kvs => specLevel3Nodes (pyIterTotal (lookupD kvs "subItem" (.list [])))
  | _ => []

/-- Specification side: the app nodes one document contributes: its
clusters' third-level dict nodes with truthy id, in order, followed by
the document itself when its id is truthy and its subItem is falsy. -/
def specDocAppNodes (doc : PyVal) : List PyVal :=
  match doc with
  | .dict kvs =>
    (pyIterTotal (lookupD kvs "subItem" (.list []))).flatMap specClusterAppNodes
      ++ (if (lookupD kvs "id" PyVal.none).truthy && !(lookupD kvs "subItem" PyVal.none).truthy
          then [doc] else [])
  | _ => []

/-- Specification side: every node the extractor emits as an app record,
in emission order. -/
def specAppNodes (data : List PyVal) : List PyVal := data.flatMap specDocAppNodes

/-- Overwriting accumulation of cursors: the running cursor after seeing
a list of found cursors in order. -/
def lastSeen (cur : Option PyVal) (l : List PyVal) : Option PyVal :=
  l.foldl (fun _ c => Option.some c) cur

/-- Outcome of one call to the remote client api.search: a response
(the decoded document list) or a raised exception, classified by whether
its text contains "429" (the rate-limit signal the driver looks for). -/
inductive ReqOutcome where
  | ok (data : List PyVal)
  | err (isRateLimit : Bool)

/-- Result of the bounded-retry request block: the data obtained (or
none when every attempt failed or a non-rate-limit error aborted the
block), the sleep durations performed in order, and how many client
calls were consumed. -/
structure RetryResult where
  data : Option (List PyVal)
  sleeps : List Nat
  consumed : Nat

/-- The for-attempt-in-range(max_retries) block of search: on success
break with the data; on an error containing "429" sleep
(attempt + 1) * 5 seconds and try again; on any other error print and
break with no data. -/
def requestAttempts (oracle : Nat → ReqOutcome) (k : Nat) : List Nat → RetryResult
  | [] => ⟨Option.none, [], 0⟩
  | attempt :: rest =>
    match oracle k with
    | .ok d => ⟨Option.some d, [], 1⟩
    | .err true =>
      let r := requestAttempts oracle (k + 1) rest
      ⟨r.data, (attempt + 1) * 5 :: r.sleeps, r.consumed + 1⟩
    | .err false => ⟨Option.none, [], 1⟩

/-- One page request with max_retries = 3. -/
def requestWithRetry (oracle : Nat → ReqOutcome) (k : Nat) : RetryResult :=
  requestAttempts oracle k (List.range 3)

/-- Observable outcome of a search call: the returned list, a
propagated exception, or divergence (the fuel bound was hit before the
while loop ended). -/
inductive SearchResult where
  | outOfFuel
  | exn (msg : String)
  | ok (apps : List AppRecord)

/-- Python list slicing l[:n] for an arbitrary int n: nonnegative n
keeps the first n elements, negative n drops the last (-n). -/
def pySliceTo (n : Int) (l : List AppRecord) : List AppRecord :=
  if n < 0 then l.take (l.length - (-n).toNat) else l.take n.toNat

/-- The dedup-and-append loop of search: for each record, take its
appId; when truthy, hash it for the seen-set membership test (lists and
dicts raise TypeError here), skip it when already seen, otherwise record
it and append, breaking out once the accumulated count reaches n_hits. -/
def dedupAdd (nHits : Int) :
    List AppRecord → List PyVal → List AppRecord →
    Except String (List AppRecord × List PyVal)
  | [], seen, acc => .ok (acc, seen)
  | app :: rest, seen, acc =>
    let idv := app.appId
    if idv.truthy then
      if pyHashable idv then
        if seen.any fun s => pyEq idv s then dedupAdd nHits rest seen acc
        else
          let acc1 := acc ++ [app]
          if nHits ≤ (acc1.length : Int) then .ok (acc1, idv :: seen)
          else dedupAdd nHits rest (idv :: seen) acc1
      else .error "TypeError: unhashable"
    else dedupAdd nHits rest seen acc

/-- The while loop of search, with an explicit fuel bound on the number
of outer iterations (the Python loop can iterate forever against an
adversarial remote).  The oracle is consulted once per client call; k is
the running call counter.  Every normal exit returns
all_apps[:n_hits]. -/
def searchLoop (oracle : Nat → ReqOutcome) (nHits : Int) :
    Nat → Nat → List PyVal → List AppRecord → SearchResult
  | 0, _, _, _ => .outOfFuel
  | fuel + 1, k, seen, acc =>
    if (acc.length : Int) < nHits then
      let rr := requestWithRetry oracle k
      match rr.data with
      | Option.none => .ok (pySliceTo nHits acc)
      | Option.some data =>
        if data.isEmpty then .ok (pySliceTo nHits acc)
        else
          match _extract_apps_from_response data with
          | .error e => .exn e
          | .ok (apps, nextPage) =>
            match dedupAdd nHits apps seen acc with
            | .error e => .exn e
            | .ok (acc1, seen1) =>
              match nextPage with
              | Option.some np =>
                if np.truthy then searchLoop oracle nHits fuel (k + rr.consumed) seen1 acc1
                else .ok (pySliceTo nHits acc1)
              | Option.none => .ok (pySliceTo nHits acc1)
    else .ok (pySliceTo nHits acc)

/-- MobilePlayAPI.search: run the pagination loop from the empty state. -/
def search (oracle : Nat → ReqOutcome) (nHits : Int) (fuel : Nat) : SearchResult :=
  searchLoop oracle nHits fuel 0 [] []

/-- _load_config: the credential-cache read.  The file system is
abstracted by whether the path exists and by the outcome of
open-plus-json.load (any exception there is caught by the bare except
and turned into None). -/
def _load_config (exists_ : Bool) (readResult : Except String PyVal) : Option PyVal :=
  if exists_ then
    match readResult with
    | .ok v => Option.some v
    | .error _ => Option.none
  else Option.none

/-- The record _parse_app produces for a document carrying only an id
(all other fields at their defaults). -/
def mkSimpleRec (idv : PyVal) : AppRecord :=
  { appId := idv, title := .str "", score := .none, developer := .none,
    developerId := .none, icon := .none, installs := .none,
    price := 0, currency := "USD", free := true, summary := .none }

/-- Price and free flag of a parse outcome, when it produced a record. -/
def priceFreeOf (e : Except String AppRecord) : Option (ℚ × Bool) :=
  e.toOption.map fun r => (r.price, r.free)

/-- Is this Python value a non-empty string? -/
def isNonEmptyStrB : PyVal → Bool
  | .str s => decide (s ≠ "")
  | _ => false

/-- The keys _parse_app reads off the top-level document. -/
def parseInspectedKeys : List String :=
  ["id", "docid", "title", "details", "aggregateRating", "image", "offer",
   "descriptionHtml", "descriptionShort"]

/-- Invariant of the dedup loop relating the accumulated records to the
seen-identifier set: every accumulated appId is in the set, the
accumulated appIds are pairwise unequal, and each is truthy. -/
def goodAcc (seen : List PyVal) (acc : List AppRecord) : Prop :=
  (∀ a ∈ acc, ∃ s ∈ seen, pyEq a.appId s = true) ∧
  acc.Pairwise (fun a b => pyEq a.appId b.appId = false) ∧
  (∀ a ∈ acc, a.appId.truthy = true)

/-- Remote oracle: every page request succeeds with an empty response. -/
def oracle0 : Nat → ReqOutcome := fun _ => .ok []

/-- Remote oracle: every page holds one document with the integer id 5. -/
def oracle1 : Nat → ReqOutcome := fun _ => .ok [PyVal.dict [("id", PyVal.int 5)]]

/-- Remote oracle: every page holds three direct app documents with ids
a, b, a (one duplicate). -/
def oracleDup : Nat → ReqOutcome := fun _ =>
  .ok [PyVal.dict [("id", PyVal.str "a")], PyVal.dict [("id", PyVal.str "b")],
       PyVal.dict [("id", PyVal.str "a")]]

/-- A response whose only cursor sits at the outer (document) level. -/
def outerCursorPage : List PyVal :=
  [PyVal.dict [("containerMetadata", PyVal.dict [("nextPageUrl", PyVal.str "tok")]),
               ("subItem", PyVal.list [PyVal.dict [("subItem", PyVal.list [])]])]]

/-- A response containing, at the second (cluster) level, a node with an
identifier and no sub-items. -/
def clusterIdPage : List PyVal :=
  [PyVal.dict [("subItem", PyVal.list [PyVal.dict [("id", PyVal.str "x")]])]]

theorem except_bind_ok {α β : Type} (x : Except String α) (f : α → Except String β) (b : β) :
    (x >>= f) = Except.ok b ↔ ∃ a, x = Except.ok a ∧ f a = Except.ok b := by
  cases x <;> simp [Bind.bind, Except.bind]

theorem pyEq_symm {a b : PyVal} (h : pyEq a b = true) : pyEq b a = true := by
  cases a <;> cases b <;> simp_all [pyEq, PyVal.toRatNum]

theorem pyEq_trans {a b c : PyVal} (h1 : pyEq a b = true) (h2 : pyEq b c = true) :
    pyEq a c = true := by
  cases a <;> cases b <;> cases c <;> simp_all [pyEq, PyVal.toRatNum]

theorem pyEq_refl_hashable {v : PyVal} (h : pyHashable v = true) : pyEq v v = true := by
  cases v <;> simp_all [pyEq, PyVal.toRatNum, pyHashable]

theorem lastSeen_append (cur : Option PyVal) (l1 l2 : List PyVal) :
    lastSeen cur (l1 ++ l2) = lastSeen (lastSeen cur l1) l2 := by
  simp [lastSeen, List.foldl_append]

theorem lastSeen_eq (l : List PyVal) : ∀ cur, lastSeen cur l = l.getLast?.or cur := by
  induction l with
  | nil => intro cur; rfl
  | cons a t ih =>
    intro cur
    have h1 : lastSeen cur (a :: t) = lastSeen (Option.some a) t := rfl
    rw [h1, ih]
    cases t with
    | nil => rfl
    | cons b t2 =>
      rw [List.getLast?_cons_cons]
      cases h : (b :: t2).getLast? with
      | none => simp [List.getLast?_eq_none_iff] at h
      | some x => rfl

theorem pyIter_total {v : PyVal} {l : List PyVal} (h : pyIter v = .ok l) : pyIterTotal v = l := by
  cases v <;> simp_all [pyIter, pyIterTotal]

theorem parseAll_append {l1 l2 : List PyVal} {r1 r2 : List AppRecord}
    (h1 : parseAll l1 = .ok r1) (h2 : parseAll l2 = .ok r2) :
    parseAll (l1 ++ l2) = .ok (r1 ++ r2) := by
  induction l1 generalizing r1 with
  | nil =>
    simp [parseAll] at h1
    subst h1
    simpa using h2
  | cons v t ih =>
    simp only [parseAll, except_bind_ok] at h1
    obtain ⟨a, ha, rs, hrs, heq⟩ := h1
    simp only [Except.ok.injEq] at heq
    subst heq
    simp only [List.cons_append, parseAll, except_bind_ok]
    exact ⟨a, ha, rs ++ r2, ih hrs, rfl⟩

theorem lookup_eq_none_of_keys {kvs : List (String × PyVal)} {k : String}
    (h : ∀ p ∈ kvs, p.1 ≠ k) : List.lookup k kvs = Option.none := by
  induction kvs with
  | nil => rfl
  | cons p t ih =>
    have hp : p.1 ≠ k := h p (by simp)
    have ht : List.lookup k t = Option.none := ih fun q hq => h q (by simp [hq])
    cases p with
    | mk a b =>
      have hba : (k == a) = false := by
        simp only [beq_eq_false_iff_ne]
        exact fun hk => hp hk.symm
      simp [List.lookup, hba, ht]


theorem parsePriceFree_free_iff {kvs : List (String × PyVal)} {pf : ℚ × Bool}
    (h : parsePriceFree kvs = .ok pf) : (pf.2 = true ↔ pf.1 = 0) := by
  simp only [parsePriceFree] at h
  split at h
  · simp only [except_bind_ok] at h
    obtain ⟨fo, hfo, h⟩ := h
    split at h
    · simp only [except_bind_ok] at h
      obtain ⟨micros, hm, price, hp, heq⟩ := h
      simp only [Except.ok.injEq] at heq
      subst heq
      simp
    · simp only [Except.ok.injEq] at h
      subst h
      simp
  · simp only [Except.ok.injEq] at h
    subst h
    simp

theorem parse_free_iff_aux {item : PyVal} {r : AppRecord} (h : _parse_app item = .ok r) :
    (r.free = true ↔ r.price = 0) := by
  cases item
  case dict kvs =>
    simp only [_parse_app, except_bind_ok] at h
    obtain ⟨details, -, devInst, -, score, -, images, -, icon, -, pf, hpf, summary, -,
      c, -, heq⟩ := h
    have hfp := parsePriceFree_free_iff hpf
    split at heq
    · simp only [except_bind_ok] at heq
      obtain ⟨e, -, heq⟩ := heq
      split at heq
      · simp only [Bind.bind, Except.bind] at heq
        cases heq
        simpa using hfp
      · simp only [Bind.bind, Except.bind] at heq
        exact Except.noConfusion heq
    · simp only [Bind.bind, Except.bind] at heq
      cases heq
      simpa using hfp
  all_goals exact Except.noConfusion h

/-- C9: the credential-cache read (_load_config) returns the previously
saved credentials when the file exists and its contents parse, and
returns none when the file is absent or when opening, reading or
parsing raises; no outcome escapes as an exception (the embedded read is
total over every modelled file-system outcome because the bare except
swallows everything). -/
theorem load_config_contract :
    (∀ v : PyVal, _load_config true (.ok v) = Option.some v) ∧
    (∀ r : Except String PyVal, _load_config false r = Option.none) ∧
    (∀ (e : Bool) (msg : String), _load_config e (.error msg) = Option.none) := by
  refine ⟨fun v => rfl, fun r => rfl, fun e msg => ?_⟩
  cases e <;> rfl

/-- C3 counterexample: _parse_app raises (AttributeError) on the
document whose details field is the string "x", because
item.get("details", {}).get("appDetails", {}) calls .get on a non-dict
value; so the normalizer does not tolerate every malformed document
without raising. -/
theorem parse_app_raises_on_nondict_details :
    _parse_app (PyVal.dict [("details", PyVal.str "x")]) = .error "AttributeError: get" := rfl

/-- C3 amended: _parse_app tolerates absent fields: any document none of
whose keys is one the normalizer inspects (in particular the empty
document) yields the default partial record without raising; a present
field of unexpected type, however, can raise. -/
theorem parse_app_tolerates_absent_fields (kvs : List (String × PyVal))
    (h : ∀ p ∈ kvs, p.1 ∉ parseInspectedKeys) :
    _parse_app (.dict kvs) = .ok (mkSimpleRec (.str "")) := by
  have hk : ∀ k ∈ parseInspectedKeys, List.lookup k kvs = Option.none := by
    intro k hkmem
    refine lookup_eq_none_of_keys fun p hp heq => h p hp ?_
    rw [heq]; exact hkmem
  have h1 := hk "id" (by simp [parseInspectedKeys])
  have h2 := hk "docid" (by simp [parseInspectedKeys])
  have h3 := hk "title" (by simp [parseInspectedKeys])
  have h4 := hk "details" (by simp [parseInspectedKeys])
  have h5 := hk "aggregateRating" (by simp [parseInspectedKeys])
  have h6 := hk "image" (by simp [parseInspectedKeys])
  have h7 := hk "offer" (by simp [parseInspectedKeys])
  have h8 := hk "descriptionHtml" (by simp [parseInspectedKeys])
  have h9 := hk "descriptionShort" (by simp [parseInspectedKeys])
  simp [_parse_app, lookupD, h1, h2, h3, h4, h5, h6, h7, h8, h9, pyOr, PyVal.truthy,
    pyGet, pyIter, findIcon, parsePriceFree, Bind.bind, Except.bind, mkSimpleRec]

theorem parse_app_tolerates_absent_fields_witness :
    _parse_app (PyVal.dict []) = Except.ok (mkSimpleRec (PyVal.str "")) :=
  parse_app_tolerates_absent_fields [] (by simp)

/-- C5: price derivation of _parse_app: an offer whose micros is the
number 1500000 or the digit string "1500000" yields price 3/2 (1.50)
with free = false; micros 0, an absent offer, and a non-digit string
micros yield price 0 with free = true; and in every record the
normalizer produces, free is true exactly when price is 0. -/
theorem parse_app_price_derivation :
    priceFreeOf (_parse_app (PyVal.dict
      [("offer", PyVal.list [PyVal.dict [("micros", PyVal.int 1500000)]])]))
      = Option.some (3/2, false) ∧
    priceFreeOf (_parse_app (PyVal.dict
      [("offer", PyVal.list [PyVal.dict [("micros", PyVal.str "1500000")]])]))
      = Option.some (3/2, false) ∧
    priceFreeOf (_parse_app (PyVal.dict
      [("offer", PyVal.list [PyVal.dict [("micros", PyVal.int 0)]])]))
      = Option.some (0, true) ∧
    priceFreeOf (_parse_app (PyVal.dict [])) = Option.some (0, true) ∧
    priceFreeOf (_parse_app (PyVal.dict
      [("offer", PyVal.list [PyVal.dict [("micros", PyVal.str "abc")]])]))
      = Option.some (0, true) ∧
    ∀ item r, _parse_app item = Except.ok r → (r.free = true ↔ r.price = 0) := by
  have hd1 : pyIsDigitStr "1500000" = true := by decide
  have hv1 : pyIntOfDigitStr "1500000" = Except.ok 1500000 := rfl
  have hd2 : pyIsDigitStr "abc" = false := by decide
  refine ⟨?_, ?_, ?_, ?_, ?_, fun item r h => parse_free_iff_aux h⟩ <;>
    simp [priceFreeOf, _parse_app, parsePriceFree, lookupD, List.lookup, pyOr, PyVal.truthy,
      pyGet, pyIter, findIcon, pySlice200, pyDivMicros, hd1, hv1, hd2, Except.map,
      Bind.bind, Except.bind, pure, Except.pure, Except.toOption] <;>
    norm_num

theorem parse_app_price_derivation_witness :
    ((mkSimpleRec (PyVal.str "")).free = true ↔ (mkSimpleRec (PyVal.str "")).price = 0) :=
  parse_app_price_derivation.2.2.2.2.2 (PyVal.dict []) (mkSimpleRec (PyVal.str "")) rfl

/-- C8: retry policy of the search request block: with max_retries = 3,
j leading rate-limit failures followed by a success wait 5, 10, ... 5j
seconds (linear in the attempt count) and deliver the data on attempt
j + 1; three rate-limit failures exhaust the attempt ceiling after
waiting 5, 10, 15 seconds; a non-rate-limit failure aborts the page at
once (no wait, no retry); and when the first attempt of a page fails
with a non-rate-limit error, the outer loop ends early returning the
results accumulated so far (sliced to n_hits). -/
theorem search_retry_policy :
    (∀ (oracle : Nat → ReqOutcome) (k j : Nat) (d : List PyVal),
        j < 3 → (∀ i, i < j → oracle (k + i) = .err true) → oracle (k + j) = .ok d →
        requestWithRetry oracle k =
          ⟨Option.some d, (List.range j).map (fun i => (i + 1) * 5), j + 1⟩) ∧
    (∀ (oracle : Nat → ReqOutcome) (k : Nat),
        (∀ i, i < 3 → oracle (k + i) = .err true) →
        requestWithRetry oracle k = ⟨Option.none, [5, 10, 15], 3⟩) ∧
    (∀ (oracle : Nat → ReqOutcome) (k : Nat),
        oracle k = .err false → requestWithRetry oracle k = ⟨Option.none, [], 1⟩) ∧
    (∀ (oracle : Nat → ReqOutcome) (nHits : Int) (fuel k : Nat)
        (seen : List PyVal) (acc : List AppRecord),
        (acc.length : Int) < nHits → oracle k = .err false →
        searchLoop oracle nHits (fuel + 1) k seen acc = .ok (pySliceTo nHits acc)) := by
  have hr3 : List.range 3 = [0, 1, 2] := rfl
  refine ⟨?_, ?_, ?_, ?_⟩
  · intro oracle k j d hj hrate hok
    interval_cases j
    · simp only [Nat.add_zero] at hok
      simp [requestWithRetry, hr3, requestAttempts, hok]
    · have h0 : oracle k = .err true := by simpa using hrate 0 (by omega)
      simp [requestWithRetry, hr3, requestAttempts, h0, hok, List.range_succ]
    · have h0 : oracle k = .err true := by simpa using hrate 0 (by omega)
      have h1 : oracle (k + 1) = .err true := hrate 1 (by omega)
      simp [requestWithRetry, hr3, requestAttempts, h0, h1, hok, List.range_succ]
  · intro oracle k hrate
    have h0 : oracle k = .err true := by simpa using hrate 0 (by omega)
    have h1 : oracle (k + 1) = .err true := hrate 1 (by omega)
    have h2 : oracle (k + 2) = .err true := hrate 2 (by omega)
    simp [requestWithRetry, hr3, requestAttempts, h0, h1, h2]
  · intro oracle k h
    simp [requestWithRetry, hr3, requestAttempts, h]
  · intro oracle nHits fuel k seen acc hlen herr
    have hreq : requestWithRetry oracle k = ⟨Option.none, [], 1⟩ := by
      simp [requestWithRetry, hr3, requestAttempts, herr]
    simp [searchLoop, hlen, hreq]

theorem search_retry_policy_witness :
    requestWithRetry (fun _ => ReqOutcome.err false) 0 = ⟨Option.none, [], 1⟩ :=
  search_retry_policy.2.2.1 (fun _ => ReqOutcome.err false) 0 rfl

theorem updateCursor_ok {c : PyVal} {cur cur1 : Option PyVal}
    (h : updateCursor c cur = .ok cur1) :
    cur1 = lastSeen cur (specContainerCursor c).toList := by
  cases c
  case dict kvs =>
    simp only [updateCursor] at h
    simp only [specContainerCursor]
    cases hl : List.lookup "nextPageUrl" kvs with
    | none =>
      rw [hl] at h
      simp only [Except.ok.injEq] at h
      subst h
      simp [lastSeen]
    | some v =>
      rw [hl] at h
      simp only [Except.ok.injEq] at h
      by_cases ht : v.truthy = true
      · simp only [if_pos ht] at h
        subst h
        simp [ht, lastSeen]
      · rw [if_neg ht] at h
        subst h
        simp only [Bool.not_eq_true] at ht
        simp [ht, lastSeen]
  all_goals exact Except.noConfusion h

theorem processApps_spec :
    ∀ (items : List PyVal) (acc acc1 : List AppRecord),
    processApps items acc = .ok acc1 →
    ∃ res, parseAll (specLevel3Nodes items) = .ok res ∧ acc1 = acc ++ res := by
  intro items
  induction items with
  | nil =>
    intro acc acc1 h
    simp only [processApps, Except.ok.injEq] at h
    exact ⟨[], by simp [specLevel3Nodes, parseAll], by simp [h]⟩
  | cons app rest ih =>
    intro acc acc1 h
    cases app
    case dict kvs =>
      simp only [processApps] at h
      split at h
      · rename_i htr
        simp only [except_bind_ok] at h
        obtain ⟨r, hr, h⟩ := h
        obtain ⟨res, hres, hacc⟩ := ih _ _ h
        refine ⟨r :: res, ?_, ?_⟩
        · have hn : specLevel3Nodes (PyVal.dict kvs :: rest)
              = PyVal.dict kvs :: specLevel3Nodes rest := by
            simp [specLevel3Nodes, List.filter_cons, htr]
          rw [hn]
          simp only [parseAll, except_bind_ok]
          exact ⟨r, hr, res, hres, rfl⟩
        · simp [hacc]
      · rename_i htr
        obtain ⟨res, hres, hacc⟩ := ih _ _ h
        refine ⟨res, ?_, hacc⟩
        have hn : specLevel3Nodes (PyVal.dict kvs :: rest) = specLevel3Nodes rest := by
          simp [specLevel3Nodes, List.filter_cons, htr]
        rw [hn]
        exact hres
    all_goals
      simp only [processApps] at h
      obtain ⟨res, hres, hacc⟩ := ih _ _ h
      exact ⟨res, by simpa [specLevel3Nodes] using hres, hacc⟩

theorem processClusters_spec :
    ∀ (cls : List PyVal) (acc : List AppRecord) (cur : Option PyVal) acc1 cur1,
    processClusters cls acc cur = .ok (acc1, cur1) →
    ∃ res, parseAll (cls.flatMap specClusterAppNodes) = .ok res ∧
      acc1 = acc ++ res ∧ cur1 = lastSeen cur (cls.flatMap specClusterCursors) := by
  intro cls
  induction cls with
  | nil =>
    intro acc cur acc1 cur1 h
    simp only [processClusters, Except.ok.injEq, Prod.mk.injEq] at h
    exact ⟨[], by simp [parseAll], by simp [h.1], by simp [lastSeen, h.2]⟩
  | cons cluster rest ih =>
    intro acc cur acc1 cur1 h
    cases cluster
    case dict kvs =>
      simp only [processClusters, except_bind_ok] at h
      obtain ⟨cur2, hcu, inner, hit, accm, hpa, hrec⟩ := h
      obtain ⟨res2, hp2, hacc2, hcur2⟩ := ih _ _ _ _ hrec
      obtain ⟨res1, hp1, haccm⟩ := processApps_spec _ _ _ hpa
      have hin : pyIterTotal (lookupD kvs "subItem" (.list [])) = inner := pyIter_total hit
      refine ⟨res1 ++ res2, ?_, ?_, ?_⟩
      · rw [List.flatMap_cons]
        refine parseAll_append ?_ hp2
        show parseAll (specClusterAppNodes (PyVal.dict kvs)) = .ok res1
        rw [specClusterAppNodes, hin]
        exact hp1
      · simp [hacc2, haccm, List.append_assoc]
      · rw [List.flatMap_cons, lastSeen_append, hcur2]
        have : lastSeen cur (specClusterCursors (PyVal.dict kvs))
            = lastSeen cur (specContainerCursor (lookupD kvs "containerMetadata" (.dict []))).toList := by
          rw [specClusterCursors]
        rw [this, ← updateCursor_ok hcu]
    all_goals
      simp only [processClusters] at h
      obtain ⟨res, hres, hacc, hcur⟩ := ih _ _ _ _ h
      exact ⟨res, by simpa [specClusterAppNodes] using hres, hacc,
        by simpa [specClusterCursors] using hcur⟩

theorem parseAll_single {v : PyVal} {r : AppRecord} (h : _parse_app v = .ok r) :
    parseAll [v] = .ok [r] := by
  simp [parseAll, h, Bind.bind, Except.bind]

theorem processDocs_spec :
    ∀ (docs : List PyVal) (acc : List AppRecord) (cur : Option PyVal) acc1 cur1,
    processDocs docs acc cur = .ok (acc1, cur1) →
    ∃ res, parseAll (docs.flatMap specDocAppNodes) = .ok res ∧
      acc1 = acc ++ res ∧ cur1 = lastSeen cur (docs.flatMap specDocCursors) := by
  intro docs
  induction docs with
  | nil =>
    intro acc cur acc1 cur1 h
    simp only [processDocs, Except.ok.injEq, Prod.mk.injEq] at h
    exact ⟨[], by simp [parseAll], by simp [h.1], by simp [lastSeen, h.2]⟩
  | cons doc rest ih =>
    intro acc cur acc1 cur1 h
    cases doc
    case dict kvs =>
      simp only [processDocs, except_bind_ok] at h
      obtain ⟨cur2, hcu, clusters, hit, res, hpc, h⟩ := h
      obtain ⟨resAcc, resCur⟩ := res
      obtain ⟨resC, hpC, haccC, hcurC⟩ := processClusters_spec _ _ _ _ _ hpc
      have hin : pyIterTotal (lookupD kvs "subItem" (.list [])) = clusters := pyIter_total hit
      have hcont : lastSeen cur (specDocCursors (PyVal.dict kvs)) = resCur := by
        rw [specDocCursors, hin, lastSeen_append, ← updateCursor_ok hcu, hcurC]
      split at h
      · rename_i hcond
        simp only [except_bind_ok] at h
        obtain ⟨r, hr, h⟩ := h
        obtain ⟨resR, hpR, haccR, hcurR⟩ := ih _ _ _ _ h
        have hnodes : specDocAppNodes (PyVal.dict kvs)
            = clusters.flatMap specClusterAppNodes ++ [PyVal.dict kvs] := by
          rw [specDocAppNodes, hin, if_pos hcond]
        refine ⟨resC ++ [r] ++ resR, ?_, ?_, ?_⟩
        · rw [List.flatMap_cons, hnodes, List.append_assoc, List.append_assoc]
          refine parseAll_append hpC ?_
          exact parseAll_append (parseAll_single hr) hpR
        · simp only [haccR, haccC, List.append_assoc]
        · rw [List.flatMap_cons, lastSeen_append, hcont, hcurR]
      · rename_i hcond
        obtain ⟨resR, hpR, haccR, hcurR⟩ := ih _ _ _ _ h
        have hnodes : specDocAppNodes (PyVal.dict kvs)
            = clusters.flatMap specClusterAppNodes := by
          rw [specDocAppNodes, hin, if_neg hcond, List.append_nil]
        refine ⟨resC ++ resR, ?_, ?_, ?_⟩
        · rw [List.flatMap_cons, hnodes]
          exact parseAll_append hpC hpR
        · simp only [haccR, haccC, List.append_assoc]
        · rw [List.flatMap_cons, lastSeen_append, hcont, hcurR]
    all_goals
      simp only [processDocs] at h
      obtain ⟨res, hres, hacc, hcur⟩ := ih _ _ _ _ h
      exact ⟨res, by simpa [specDocAppNodes] using hres, hacc,
        by simpa [specDocCursors] using hcur⟩

/-- C6: when the extractor returns normally, the continuation cursor it
reports is the last-seen truthy cursor in document order (the outer
document-level cursor is visited before that document's cluster-level
cursors, and later-found cursors overwrite earlier ones); in particular
a cursor present only at the outer level is returned, and when no cursor
appears anywhere the result is none (getLast? of the empty list). -/
theorem extract_cursor_last_seen (data : List PyVal) (apps : List AppRecord)
    (cur : Option PyVal)
    (h : _extract_apps_from_response data = .ok (apps, cur)) :
    cur = (specPageCursors data).getLast? := by
  obtain ⟨res, -, -, hcur⟩ := processDocs_spec _ _ _ _ _ h
  rw [hcur, lastSeen_eq]
  simp [specPageCursors]

theorem extract_cursor_last_seen_witness :
    (Option.some (PyVal.str "tok") : Option PyVal) = (specPageCursors outerCursorPage).getLast? :=
  extract_cursor_last_seen outerCursorPage [] (Option.some (PyVal.str "tok")) rfl

/-- C7 amended: the records a successful extraction emits are exactly,
in order, the parses of the specAppNodes of the response: for each dict
document, every dict node of a dict cluster's subItem whose id is truthy
(whether or not that node carries further sub-items), followed by the
document itself when its id is truthy and its subItem is falsy;
second-level cluster nodes are never emitted. -/
theorem extract_emits_exactly_spec_nodes (data : List PyVal) (apps : List AppRecord)
    (cur : Option PyVal) (h : _extract_apps_from_response data = .ok (apps, cur)) :
    parseAll (specAppNodes data) = .ok apps := by
  obtain ⟨res, hp, hacc, -⟩ := processDocs_spec _ _ _ _ _ h
  simp only [List.nil_append] at hacc
  subst hacc
  simpa [specAppNodes] using hp

theorem extract_emits_exactly_spec_nodes_witness :
    parseAll (specAppNodes [PyVal.dict [("id", PyVal.int 5)]])
      = .ok [mkSimpleRec (PyVal.int 5)] :=
  extract_emits_exactly_spec_nodes [PyVal.dict [("id", PyVal.int 5)]]
    [mkSimpleRec (PyVal.int 5)] Option.none rfl

/-- C7 counterexample: the response clusterIdPage contains, at the
second (cluster) nesting level, the node with an identifier ("id": "x")
and no sub-items, yet the extractor emits no app record for it; so it is
not the case that a node is emitted iff it has an identifier and no
sub-items at whichever of the three levels it appears. -/
theorem extract_misses_cluster_level_node :
    _extract_apps_from_response clusterIdPage = .ok ([], Option.none) ∧
    (lookupD [("id", PyVal.str "x")] "id" PyVal.none).truthy = true ∧
    (lookupD [("id", PyVal.str "x")] "subItem" PyVal.none).truthy = false :=
  ⟨rfl, rfl, rfl⟩

theorem pySliceTo_sublist (n : Int) (l : List AppRecord) : List.Sublist (pySliceTo n l) l := by
  rw [pySliceTo]
  split <;> exact List.take_sublist _ _

theorem pySliceTo_length_le {n : Int} (hn : 0 ≤ n) (l : List AppRecord) :
    ((pySliceTo n l).length : Int) ≤ n := by
  rw [pySliceTo, if_neg (by omega)]
  simp only [List.length_take]
  omega

theorem searchLoop_ok_slice :
    ∀ (fuel : Nat) (oracle : Nat → ReqOutcome) (nHits : Int) (k : Nat)
      (seen : List PyVal) (acc : List AppRecord) (l : List AppRecord),
    searchLoop oracle nHits fuel k seen acc = .ok l →
    ∃ acc0, l = pySliceTo nHits acc0 := by
  intro fuel
  induction fuel with
  | zero =>
    intro _ _ _ _ _ _ h
    exact absurd h (by simp [searchLoop])
  | succ fuel ih =>
    intro oracle nHits k seen acc l h
    simp only [searchLoop] at h
    split at h
    · split at h
      · simp only [SearchResult.ok.injEq] at h
        exact ⟨acc, h.symm⟩
      · split at h
        · simp only [SearchResult.ok.injEq] at h
          exact ⟨acc, h.symm⟩
        · split at h
          · exact SearchResult.noConfusion h
          · split at h
            · exact SearchResult.noConfusion h
            · split at h
              · split at h
                · exact ih _ _ _ _ _ _ h
                · simp only [SearchResult.ok.injEq] at h
                  exact ⟨_, h.symm⟩
              · simp only [SearchResult.ok.injEq] at h
                exact ⟨_, h.symm⟩
    · simp only [SearchResult.ok.injEq] at h
      exact ⟨acc, h.symm⟩

theorem goodAcc_extend {seen : List PyVal} {acc : List AppRecord} {app : AppRecord}
    (hg : goodAcc seen acc) (htr : app.appId.truthy = true)
    (hha : pyHashable app.appId = true)
    (hmem : (seen.any fun s => pyEq app.appId s) = false) :
    goodAcc (app.appId :: seen) (acc ++ [app]) := by
  obtain ⟨hmemb, hpw, htru⟩ := hg
  have hnotin : ∀ s ∈ seen, pyEq app.appId s = false := by
    intro s hs
    by_contra hc
    rw [Bool.not_eq_false] at hc
    have hany : (seen.any fun s => pyEq app.appId s) = true := List.any_eq_true.mpr ⟨s, hs, hc⟩
    rw [hany] at hmem
    exact Bool.noConfusion hmem
  refine ⟨?_, ?_, ?_⟩
  · intro a ha
    rcases List.mem_append.mp ha with ha | ha
    · obtain ⟨s, hs, hpe⟩ := hmemb a ha
      exact ⟨s, List.mem_cons_of_mem _ hs, hpe⟩
    · simp only [List.mem_singleton] at ha
      subst ha
      exact ⟨a.appId, List.mem_cons_self _ _, pyEq_refl_hashable hha⟩
  · rw [List.pairwise_append]
    refine ⟨hpw, List.pairwise_singleton _ _, ?_⟩
    intro a ha b hb
    simp only [List.mem_singleton] at hb
    subst hb
    by_contra hc
    rw [Bool.not_eq_false] at hc
    obtain ⟨s, hs, hpe⟩ := hmemb a ha
    have h2 : pyEq b.appId s = true := pyEq_trans (pyEq_symm hc) hpe
    rw [hnotin s hs] at h2
    exact Bool.noConfusion h2
  · intro a ha
    rcases List.mem_append.mp ha with ha | ha
    · exact htru a ha
    · simp only [List.mem_singleton] at ha
      subst ha
      exact htr

theorem dedupAdd_good :
    ∀ (apps : List AppRecord) (nHits : Int) (seen : List PyVal)
      (acc acc1 : List AppRecord) (seen1 : List PyVal),
    goodAcc seen acc → dedupAdd nHits apps seen acc = .ok (acc1, seen1) →
    goodAcc seen1 acc1 := by
  intro apps
  induction apps with
  | nil =>
    intro nHits seen acc acc1 seen1 hg h
    simp only [dedupAdd, Except.ok.injEq, Prod.mk.injEq] at h
    obtain ⟨h1, h2⟩ := h
    subst h1
    subst h2
    exact hg
  | cons app rest ih =>
    intro nHits seen acc acc1 seen1 hg h
    simp only [dedupAdd] at h
    split at h
    · rename_i htr
      split at h
      · rename_i hha
        split at h
        · exact ih _ _ _ _ _ hg h
        · rename_i hmem
          rw [Bool.not_eq_true] at hmem
          have hg2 : goodAcc (app.appId :: seen) (acc ++ [app]) :=
            goodAcc_extend hg htr hha hmem
          split at h
          · simp only [Except.ok.injEq, Prod.mk.injEq] at h
            obtain ⟨h1, h2⟩ := h
            subst h1
            subst h2
            exact hg2
          · exact ih _ _ _ _ _ hg2 h
      · exact Except.noConfusion h
    · exact ih _ _ _ _ _ hg h

theorem searchLoop_good :
    ∀ (fuel : Nat) (oracle : Nat → ReqOutcome) (nHits : Int) (k : Nat)
      (seen : List PyVal) (acc : List AppRecord) (l : List AppRecord),
    goodAcc seen acc → searchLoop oracle nHits fuel k seen acc = .ok l →
    l.Pairwise (fun a b => pyEq a.appId b.appId = false) ∧ ∀ a ∈ l, a.appId.truthy = true := by
  have hslice : ∀ (nHits : Int) (seen : List PyVal) (acc : List AppRecord),
      goodAcc seen acc →
      (pySliceTo nHits acc).Pairwise (fun a b => pyEq a.appId b.appId = false) ∧
        ∀ a ∈ pySliceTo nHits acc, a.appId.truthy = true := by
    intro nHits seen acc hg
    obtain ⟨-, hpw, htru⟩ := hg
    have hsub := pySliceTo_sublist nHits acc
    exact ⟨hpw.sublist hsub, fun a ha => htru a (hsub.subset ha)⟩
  intro fuel
  induction fuel with
  | zero =>
    intro _ _ _ _ _ _ _ h
    exact absurd h (by simp [searchLoop])
  | succ fuel ih =>
    intro oracle nHits k seen acc l hg h
    simp only [searchLoop] at h
    split at h
    · split at h
      · simp only [SearchResult.ok.injEq] at h
        subst h
        exact hslice _ _ _ hg
      · split at h
        · simp only [SearchResult.ok.injEq] at h
          subst h
          exact hslice _ _ _ hg
        · split at h
          · exact SearchResult.noConfusion h
          · split at h
            · exact SearchResult.noConfusion h
            · rename_i hdd
              have hg2 := dedupAdd_good _ _ _ _ _ _ hg hdd
              split at h
              · split at h
                · exact ih _ _ _ _ _ _ hg2 h
                · simp only [SearchResult.ok.injEq] at h
                  subst h
                  exact hslice _ _ _ hg2
              · simp only [SearchResult.ok.injEq] at h
                subst h
                exact hslice _ _ _ hg2
    · simp only [SearchResult.ok.injEq] at h
      subst h
      exact hslice _ _ _ hg

/-- C1 counterexample: for n_hits = -1 the while condition is initially
false and search returns the empty list, whose length 0 is not at most
-1; so the bound does not hold for every n_hits (Python ints include
negatives). -/
theorem search_negative_nhits_exceeds :
    search oracle0 (-1) 3 = SearchResult.ok [] ∧
    ¬ ((([] : List AppRecord).length : Int) ≤ -1) := ⟨rfl, by decide⟩

/-- C1 amended: for every oracle (any number of pages with any contents),
every nonnegative n_hits and every fuel bound, a normally returned search
result has length at most n_hits, because every exit of the loop returns
all_apps[:n_hits]. -/
theorem search_result_within_limit (oracle : Nat → ReqOutcome) (nHits : Int) (fuel : Nat)
    (l : List AppRecord) (hn : 0 ≤ nHits) (h : search oracle nHits fuel = .ok l) :
    (l.length : Int) ≤ nHits := by
  obtain ⟨acc0, hl⟩ := searchLoop_ok_slice fuel oracle nHits 0 [] [] l h
  subst hl
  exact pySliceTo_length_le hn acc0

theorem search_result_within_limit_witness :
    ((([] : List AppRecord).length : Int) ≤ 10) :=
  search_result_within_limit oracle0 10 1 [] (by decide) rfl

/-- C2: in every list a search call returns, the appIds are pairwise
distinct under Python equality: a record whose identifier is already in
the seen set is skipped, so no two returned records share an
identifier. -/
theorem search_ids_pairwise_distinct (oracle : Nat → ReqOutcome) (nHits : Int) (fuel : Nat)
    (l : List AppRecord) (h : search oracle nHits fuel = .ok l) :
    l.Pairwise fun a b => pyEq a.appId b.appId = false :=
  (searchLoop_good fuel oracle nHits 0 [] [] l (by simp [goodAcc]) h).1

theorem search_ids_pairwise_distinct_witness :
    List.Pairwise (fun a b => pyEq a.appId b.appId = false)
      [mkSimpleRec (PyVal.str "a"), mkSimpleRec (PyVal.str "b")] :=
  search_ids_pairwise_distinct oracleDup 10 5
    [mkSimpleRec (PyVal.str "a"), mkSimpleRec (PyVal.str "b")] rfl

/-- C10 counterexample: a page whose document is just id 5 (an int)
yields a returned record whose appId is the integer 5, which is not a
non-empty string; so not every returned appId is a non-empty string. -/
theorem search_appid_not_string :
    search oracle1 10 5 = SearchResult.ok [mkSimpleRec (PyVal.int 5)] ∧
    isNonEmptyStrB (mkSimpleRec (PyVal.int 5)).appId = false := ⟨rfl, rfl⟩

/-- C10 amended: every record in a returned search list has a truthy
appId (the extractor only emits nodes with a truthy id, and the dedup
step skips falsy identifiers); when the identifier is a string this
means it is non-empty, but the appId need not be a string. -/
theorem search_ids_truthy (oracle : Nat → ReqOutcome) (nHits : Int) (fuel : Nat)
    (l : List AppRecord) (h : search oracle nHits fuel = .ok l) :
    ∀ r ∈ l, r.appId.truthy = true :=
  (searchLoop_good fuel oracle nHits 0 [] [] l (by simp [goodAcc]) h).2

theorem search_ids_truthy_witness :
    (mkSimpleRec (PyVal.int 5)).appId.truthy = true :=
  search_ids_truthy oracle1 10 5 [mkSimpleRec (PyVal.int 5)] rfl
    (mkSimpleRec (PyVal.int 5)) (by simp)

